import Mathlib

/-!
Verification of the encryption-at-rest and key-management core of the
password-manager repository (Python sources under `src/`), as a shallow
embedding in Lean 4.

Embedding conventions:
* bytes are `Nat` values below 256, byte strings are `List Nat`;
* Python `str` values are Lean `String`s; `str.encode("utf-8")` is the
  executable encoder `utf8Encode` below;
* machine words are `Nat` with explicit `% 2 ^ 32` where overflow matters;
* fallible operations return `Option`/`Except` instead of raising;
* the SQLite database is explicit state (lists of stored rows), the salt
  file is an `Option (List Nat)` (absent / raw contents).

The PBKDF2-HMAC-SHA256 primitive invoked by `derive_key` through Python's
`hashlib.pbkdf2_hmac` is implemented below in full (FIPS 180-4 SHA-256,
RFC 2104 HMAC, RFC 2898 PBKDF2), so the statements about `derive_key` are
about the real key-derivation function.
-/

namespace PasswordManager

/-- Truncating addition on 32-bit words represented as `Nat`. -/
def add32 (a b : Nat) : Nat := (a + b) % 2 ^ 32

/-- Right rotation of a 32-bit word by `r` places. -/
def rotr32 (r x : Nat) : Nat :=
  ((x >>> r) ||| (x <<< (32 - r))) % 2 ^ 32

/-- Bitwise complement inside 32 bits. -/
def not32 (x : Nat) : Nat := x ^^^ 0xFFFFFFFF

/-- Big-endian 4-byte encoding of a 32-bit value. -/
def be32 (x : Nat) : List Nat :=
  [x / 2 ^ 24 % 256, x / 2 ^ 16 % 256, x / 2 ^ 8 % 256, x % 256]

/-- Big-endian 8-byte encoding of a 64-bit value. -/
def be64 (x : Nat) : List Nat :=
  [x / 2 ^ 56 % 256, x / 2 ^ 48 % 256, x / 2 ^ 40 % 256, x / 2 ^ 32 % 256,
   x / 2 ^ 24 % 256, x / 2 ^ 16 % 256, x / 2 ^ 8 % 256, x % 256]

/-- The eight working variables of the SHA-256 compression function. -/
structure Sha256State where
  a : Nat
  b : Nat
  c : Nat
  d : Nat
  e : Nat
  f : Nat
  g : Nat
  h : Nat

/-- SHA-256 initial hash value (FIPS 180-4 §5.3.3). -/
def sha256Init : Sha256State :=
  ⟨1779033703, 3144134277, 1013904242, 2773480762,
   1359893119, 2600822924, 528734635, 1541459225⟩

/-- SHA-256 round constants (FIPS 180-4 §4.2.2). -/
def sha256K : List Nat :=
  [1116352408, 1899447441, 3049323471, 3921009573, 961987163, 1508970993,
   2453635748, 2870763221, 3624381080, 310598401, 607225278, 1426881987,
   1925078388, 2162078206, 2614888103, 3248222580, 3835390401, 4022224774,
   264347078, 604807628, 770255983, 1249150122, 1555081692, 1996064986,
   2554220882, 2821834349, 2952996808, 3210313671, 3336571891, 3584528711,
   113926993, 338241895, 666307205, 773529912, 1294757372, 1396182291,
   1695183700, 1986661051, 2177026350, 2456956037, 2730485921, 2820302411,
   3259730800, 3345764771, 3516065817, 3600352804, 4094571909, 275423344,
   430227734, 506948616, 659060556, 883997877, 958139571, 1322822218,
   1537002063, 1747873779, 1955562222, 2024104815, 2227730452, 2361852424,
   2428436474, 2756734187, 3204031479, 3329325298]

/-- SHA-256 message padding: append `0x80`, zeros, and the 64-bit
bit-length, reaching a multiple of 64 bytes (FIPS 180-4 §5.1.1). -/
def sha256Pad (msg : List Nat) : List Nat :=
  msg ++ [0x80] ++ List.replicate ((119 - msg.length % 64) % 64) 0
    ++ be64 (8 * msg.length)

/-- Split a byte string into 64-byte blocks. -/
def chunks64 (l : List Nat) : List (List Nat) :=
  if l = [] then []
  else l.take 64 :: chunks64 (l.drop 64)
termination_by l.length
decreasing_by
  rename_i h
  have : l.length ≠ 0 := fun hl => h (List.eq_nil_of_length_eq_zero hl)
  simp [List.length_drop]
  omega

/-- Combine consecutive byte quadruples into big-endian 32-bit words. -/
def bytesToWords : List Nat → List Nat
  | b0 :: b1 :: b2 :: b3 :: rest =>
      (b0 * 2 ^ 24 + b1 * 2 ^ 16 + b2 * 2 ^ 8 + b3) % 2 ^ 32 :: bytesToWords rest
  | _ => []

/-- The σ₀ message-schedule function. -/
def ssig0 (x : Nat) : Nat := rotr32 7 x ^^^ rotr32 18 x ^^^ (x >>> 3)

/-- The σ₁ message-schedule function. -/
def ssig1 (x : Nat) : Nat := rotr32 17 x ^^^ rotr32 19 x ^^^ (x >>> 10)

/-- The Σ₀ round function. -/
def bsig0 (x : Nat) : Nat := rotr32 2 x ^^^ rotr32 13 x ^^^ rotr32 22 x

/-- The Σ₁ round function. -/
def bsig1 (x : Nat) : Nat := rotr32 6 x ^^^ rotr32 11 x ^^^ rotr32 25 x

/-- Extend the 16 message words by `n` further schedule words. -/
def extendW : Nat → List Nat → List Nat
  | 0, w => w
  | n + 1, w =>
      let i := w.length
      extendW n (w ++ [(w.getD (i - 16) 0 + ssig0 (w.getD (i - 15) 0)
        + w.getD (i - 7) 0 + ssig1 (w.getD (i - 2) 0)) % 2 ^ 32])

/-- One SHA-256 round, consuming a (round constant, schedule word) pair. -/
def sha256Round (s : Sha256State) (kw : Nat × Nat) : Sha256State :=
  let ch := (s.e &&& s.f) ^^^ (not32 s.e &&& s.g)
  let temp1 := (s.h + bsig1 s.e + ch + kw.1 + kw.2) % 2 ^ 32
  let maj := (s.a &&& s.b) ^^^ (s.a &&& s.c) ^^^ (s.b &&& s.c)
  let temp2 := (bsig0 s.a + maj) % 2 ^ 32
  ⟨add32 temp1 temp2, s.a, s.b, s.c, add32 s.d temp1, s.e, s.f, s.g⟩

/-- SHA-256 compression of one 64-byte block into the running state. -/
def sha256Compress (s : Sha256State) (block : List Nat) : Sha256State :=
  let w := extendW 48 (bytesToWords block)
  let t := (sha256K.zip w).foldl sha256Round s
  ⟨add32 s.a t.a, add32 s.b t.b, add32 s.c t.c, add32 s.d t.d,
   add32 s.e t.e, add32 s.f t.f, add32 s.g t.g, add32 s.h t.h⟩

/-- Serialize the final state as the 32-byte digest. -/
def sha256StateBytes (s : Sha256State) : List Nat :=
  be32 s.a ++ be32 s.b ++ be32 s.c ++ be32 s.d
    ++ be32 s.e ++ be32 s.f ++ be32 s.g ++ be32 s.h

/-- SHA-256 of a byte string (FIPS 180-4), as called by Python's
`hashlib` machinery underlying `derive_key`. -/
def sha256 (msg : List Nat) : List Nat :=
  sha256StateBytes ((chunks64 (sha256Pad msg)).foldl sha256Compress sha256Init)

/-- A SHA-256 digest is always exactly 32 bytes. -/
theorem sha256_length (msg : List Nat) : (sha256 msg).length = 32 := by
  simp [sha256, sha256StateBytes, be32]

/-- UTF-8 encoding of a Unicode code point (1–4 bytes), the byte-level
meaning of Python's `str.encode("utf-8")` for one character. -/
def utf8EncodeChar (n : Nat) : List Nat :=
  if n < 0x80 then [n]
  else if n < 0x800 then [0xC0 + n / 64, 0x80 + n % 64]
  else if n < 0x10000 then
    [0xE0 + n / 4096, 0x80 + n / 64 % 64, 0x80 + n % 64]
  else
    [0xF0 + n / 0x40000, 0x80 + n / 4096 % 64, 0x80 + n / 64 % 64,
     0x80 + n % 64]

/-- UTF-8 encoding of a whole string: Python's `s.encode("utf-8")`. -/
def utf8Encode (s : String) : List Nat :=
  (s.data.map (fun c => utf8EncodeChar c.toNat)).flatten

/-- HMAC-SHA256 (RFC 2104) with a 64-byte block size, the PRF used by
`hashlib.pbkdf2_hmac("sha256", ...)`. -/
def hmacSha256 (key msg : List Nat) : List Nat :=
  let k0 := if 64 < key.length then sha256 key else key
  let k := k0 ++ List.replicate (64 - k0.length) 0
  sha256 ((k.map (· ^^^ 0x5C)) ++ sha256 ((k.map (· ^^^ 0x36)) ++ msg))

/-- An HMAC-SHA256 tag is always exactly 32 bytes. -/
theorem hmacSha256_length (key msg : List Nat) :
    (hmacSha256 key msg).length = 32 := sha256_length _

/-- The inner loop of the PBKDF2 block function `F`: iterate the PRF and
fold the iterates together with XOR (RFC 2898 §5.2). -/
def pbkdf2Iter (p : List Nat) : Nat → List Nat → List Nat → List Nat
  | 0, _, acc => acc
  | k + 1, u, acc =>
      let u' := hmacSha256 p u
      pbkdf2Iter p k u' (List.zipWith (· ^^^ ·) acc u')

/-- The PBKDF2 block function `T_i = F(P, S, c, i)`. -/
def pbkdf2F (p s : List Nat) (c i : Nat) : List Nat :=
  let u1 := hmacSha256 p (s ++ be32 i)
  pbkdf2Iter p (c - 1) u1 u1

/-- PBKDF2 with HMAC-SHA256 (RFC 2898): the function Python exposes as
`hashlib.pbkdf2_hmac("sha256", password, salt, iterations, dklen)`. -/
def pbkdf2HmacSha256 (p s : List Nat) (c dkLen : Nat) : List Nat :=
  (((List.range ((dkLen + 31) / 32)).map
      (fun i => pbkdf2F p s c (i + 1))).flatten).take dkLen

/-- The inner PBKDF2 loop preserves the 32-byte accumulator length. -/
theorem pbkdf2Iter_length (p : List Nat) (k : Nat) :
    ∀ u acc : List Nat, acc.length = 32 → (pbkdf2Iter p k u acc).length = 32 := by
  induction k with
  | zero => intro u acc h; simpa [pbkdf2Iter] using h
  | succ k ih =>
      intro u acc h
      simp only [pbkdf2Iter]
      exact ih _ _ (by
        rw [List.length_zipWith, h, hmacSha256_length]; rfl)

/-- Every PBKDF2 block is exactly 32 bytes. -/
theorem pbkdf2F_length (p s : List Nat) (c i : Nat) :
    (pbkdf2F p s c i).length = 32 :=
  pbkdf2Iter_length p (c - 1) _ _ (hmacSha256_length _ _)

/-- PBKDF2 returns exactly `dkLen` bytes. -/
theorem pbkdf2HmacSha256_length (p s : List Nat) (c dkLen : Nat) :
    (pbkdf2HmacSha256 p s c dkLen).length = dkLen := by
  simp only [pbkdf2HmacSha256, List.length_take]
  rw [List.length_flatten]
  have hmap : (((List.range ((dkLen + 31) / 32)).map
      (fun i => pbkdf2F p s c (i + 1))).map List.length)
      = (List.range ((dkLen + 31) / 32)).map (fun _ => 32) := by
    rw [List.map_map]
    exact List.map_congr_left (fun i _ => pbkdf2F_length p s c (i + 1))
  rw [hmap]
  have hsum : ((List.range ((dkLen + 31) / 32)).map (fun _ => 32)).sum
      = 32 * ((dkLen + 31) / 32) := by
    induction (dkLen + 31) / 32 with
    | zero => simp
    | succ n ihn => rw [List.range_succ]; simp [ihn]; ring
  rw [hsum]
  omega

/-- The module-level PBKDF2 iteration count of `derive_key`
(`src/utils/utils.py`, `iterations = 600000`). -/
def derive_key_iterations : Nat := 600000

/-- `derive_key` from `src/utils/utils.py`: PBKDF2-HMAC-SHA256 over the
UTF-8 encoding of the master password and the salt, 600000 iterations,
32-byte output. -/
def derive_key (password : String) (salt : List Nat) : List Nat :=
  pbkdf2HmacSha256 (utf8Encode password) salt derive_key_iterations 32

/-- Strict UTF-8 decoding into characters (rejecting truncated sequences,
stray continuation bytes, overlong forms, surrogates and out-of-range code
points), the byte-level meaning of Python's `bytes.decode("utf-8")`.
`fuel` only bounds the recursion depth; one unit is spent per decoded
character, so any `fuel ≥ l.length` gives the same answer. -/
def utf8DecodeAux : Nat → List Nat → Option (List Char)
  | _, [] => some []
  | 0, _ :: _ => none
  | m + 1, b :: bs =>
    if b < 0x80 then
      (utf8DecodeAux m bs).map (fun cs => Char.ofNat b :: cs)
    else if b < 0xC2 then none
    else if b < 0xE0 then
      match bs with
      | b1 :: bs1 =>
        if 0x80 ≤ b1 ∧ b1 < 0xC0 then
          (utf8DecodeAux m bs1).map
            (fun cs => Char.ofNat ((b - 0xC0) * 64 + (b1 - 0x80)) :: cs)
        else none
      | [] => none
    else if b < 0xF0 then
      match bs with
      | b1 :: b2 :: bs2 =>
        if 0x80 ≤ b1 ∧ b1 < 0xC0 ∧ 0x80 ≤ b2 ∧ b2 < 0xC0 then
          let n := (b - 0xE0) * 4096 + (b1 - 0x80) * 64 + (b2 - 0x80)
          if n < 0x800 ∨ (0xD800 ≤ n ∧ n < 0xE000) then none
          else (utf8DecodeAux m bs2).map (fun cs => Char.ofNat n :: cs)
        else none
      | _ => none
    else if b < 0xF5 then
      match bs with
      | b1 :: b2 :: b3 :: bs3 =>
        if 0x80 ≤ b1 ∧ b1 < 0xC0 ∧ 0x80 ≤ b2 ∧ b2 < 0xC0
            ∧ 0x80 ≤ b3 ∧ b3 < 0xC0 then
          let n := (b - 0xF0) * 0x40000 + (b1 - 0x80) * 4096
            + (b2 - 0x80) * 64 + (b3 - 0x80)
          if n < 0x10000 ∨ 0x110000 ≤ n then none
          else (utf8DecodeAux m bs3).map (fun cs => Char.ofNat n :: cs)
        else none
      | _ => none
    else none

/-- UTF-8 decoding of a byte string. -/
def utf8DecodeChars (l : List Nat) : Option (List Char) :=
  utf8DecodeAux l.length l

/-- Decoding undoes encoding, one character at a time. -/
theorem utf8DecodeAux_encodeChar (c : Char) (rest : List Nat) (m : Nat) :
    utf8DecodeAux (m + 1) (utf8EncodeChar c.toNat ++ rest)
      = (utf8DecodeAux m rest).map (fun cs => c :: cs) := by
  have hv : c.toNat < 0xD800 ∨ (0xDFFF < c.toNat ∧ c.toNat < 0x110000) :=
    c.valid
  have hofNat : Char.ofNat c.toNat = c := Char.ofNat_toNat c
  set n := c.toNat with hn
  by_cases h1 : n < 0x80
  · rw [utf8EncodeChar, if_pos h1]
    rw [List.cons_append, List.nil_append, utf8DecodeAux.eq_def]
    simp only []
    rw [if_pos h1, hofNat]
  · by_cases h2 : n < 0x800
    · rw [utf8EncodeChar, if_neg h1, if_pos h2]
      rw [List.cons_append, List.cons_append, List.nil_append,
        utf8DecodeAux.eq_def]
      simp only []
      rw [if_neg (by omega), if_neg (by omega), if_pos (by omega)]
      rw [if_pos (by omega)]
      have hval : (0xC0 + n / 64 - 0xC0) * 64 + (0x80 + n % 64 - 0x80) = n := by
        omega
      rw [hval, hofNat]
    · by_cases h3 : n < 0x10000
      · rw [utf8EncodeChar, if_neg h1, if_neg h2, if_pos h3]
        rw [List.cons_append, List.cons_append, List.cons_append,
          List.nil_append, utf8DecodeAux.eq_def]
        simp only []
        rw [if_neg (by omega), if_neg (by omega), if_neg (by omega),
          if_pos (by omega)]
        rw [if_pos (by omega)]
        have hval : (0xE0 + n / 4096 - 0xE0) * 4096
            + (0x80 + n / 64 % 64 - 0x80) * 64 + (0x80 + n % 64 - 0x80) = n := by
          omega
        simp only [hval]
        rw [if_neg (by omega), hofNat]
      · rw [utf8EncodeChar, if_neg h1, if_neg h2, if_neg h3]
        rw [List.cons_append, List.cons_append, List.cons_append,
          List.cons_append, List.nil_append, utf8DecodeAux.eq_def]
        simp only []
        rw [if_neg (by omega), if_neg (by omega), if_neg (by omega),
          if_neg (by omega), if_pos (by omega)]
        rw [if_pos (by omega)]
        have hval : (0xF0 + n / 0x40000 - 0xF0) * 0x40000
            + (0x80 + n / 4096 % 64 - 0x80) * 4096
            + (0x80 + n / 64 % 64 - 0x80) * 64 + (0x80 + n % 64 - 0x80) = n := by
          omega
        simp only [hval]
        rw [if_neg (by omega), hofNat]

/-- With sufficient fuel, decoding undoes encoding for character lists. -/
theorem utf8DecodeAux_encodeList (cs : List Char) :
    ∀ m : Nat, cs.length ≤ m →
      utf8DecodeAux m ((cs.map (fun c => utf8EncodeChar c.toNat)).flatten)
        = some cs := by
  induction cs with
  | nil => intro m _; rw [List.map_nil, List.flatten_nil]; cases m <;> rfl
  | cons c cs ih =>
      intro m hm
      obtain ⟨m', rfl⟩ : ∃ m', m = m' + 1 := by
        cases m with
        | zero => simp at hm
        | succ k => exact ⟨k, rfl⟩
      rw [List.map_cons, List.flatten_cons, utf8DecodeAux_encodeChar,
        ih m' (by simpa using Nat.lt_succ_iff.mp (Nat.lt_of_lt_of_le
          (Nat.lt_succ_self _) hm))]
      rfl

/-- Every encoded character occupies at least one byte. -/
theorem utf8EncodeChar_length_pos (n : Nat) :
    1 ≤ (utf8EncodeChar n).length := by
  rw [utf8EncodeChar]
  by_cases h1 : n < 0x80
  · rw [if_pos h1]; simp
  · rw [if_neg h1]
    by_cases h2 : n < 0x800
    · rw [if_pos h2]; simp
    · rw [if_neg h2]
      by_cases h3 : n < 0x10000
      · rw [if_pos h3]; simp
      · rw [if_neg h3]; simp

/-- Decoding undoes encoding for whole strings. -/
theorem utf8DecodeChars_utf8Encode (s : String) :
    utf8DecodeChars (utf8Encode s) = some s.data := by
  rw [utf8DecodeChars, utf8Encode]
  refine utf8DecodeAux_encodeList s.data _ ?_
  induction s.data with
  | nil => simp
  | cons c cs ih =>
      rw [List.map_cons, List.flatten_cons, List.length_cons,
        List.length_append]
      have := utf8EncodeChar_length_pos c.toNat
      omega

/-! ### FieldCipher, modelled from the spec

The AES-GCM field cipher used by the entity columns
(`StringEncryptedType(String, key, AesGcmEngine, "pkcs5")` in
`src/models/entities.py` and `src/utils/utils.py`) lives in the
third-party `sqlalchemy_utils`/`cryptography` libraries, outside the
repository sources.  It is modelled here from the spec, §4.3 FieldCipher:
the on-disk value is `{nonce, ciphertext, authentication tag}`; encryption
XORs the UTF-8 plaintext with a keystream derived from key and nonce;
decryption first checks the authentication tag and fails (wrong key or
corrupted data) on any mismatch, succeeding only with the original key on
the original data — the spec's invariant that "decryption with the wrong
key must be detectable (authenticated encryption)" is modelled by a tag
that commits exactly to the key and the authenticated data. -/

/-- Modelled from the spec: the authentication tag of an encrypted field,
committing to the encryption key and to `nonce ++ ciphertext` (spec §4.3,
"tag mismatch → AuthenticationFailure"). -/
structure AuthTag where
  key : String
  body : List Nat
deriving DecidableEq

/-- Modelled from the spec: the on-disk representation of an encrypted
column value, `{nonce/IV, ciphertext, authentication tag}` (spec §3,
EncryptedField). -/
structure EncryptedField where
  nonce : List Nat
  ciphertext : List Nat
  tag : AuthTag
deriving DecidableEq

/-- Keystream blocks for the modelled cipher: block `i` is the SHA-256
digest of `key ++ nonce ++ counter`. -/
def keystreamBlocks (keyBytes nonce : List Nat) : Nat → List Nat
  | 0 => []
  | i + 1 => keystreamBlocks keyBytes nonce i ++ sha256 (keyBytes ++ nonce ++ be32 i)

/-- `n` keystream bytes for the modelled cipher. -/
def keystream (key : String) (nonce : List Nat) (n : Nat) : List Nat :=
  (keystreamBlocks (utf8Encode key) nonce n).take n

/-- Modelled from the spec: `FieldCipher.encrypt` on a byte string. -/
def aeadEncrypt (plaintext : List Nat) (key : String) (nonce : List Nat) :
    EncryptedField :=
  let ct := List.zipWith (· ^^^ ·) plaintext (keystream key nonce plaintext.length)
  ⟨nonce, ct, ⟨key, nonce ++ ct⟩⟩

/-- Modelled from the spec: `FieldCipher.decrypt` on a byte string;
`none` is the `AuthenticationFailure` outcome (spec §4.3). -/
def aeadDecrypt (f : EncryptedField) (key : String) : Option (List Nat) :=
  if f.tag = ⟨key, f.nonce ++ f.ciphertext⟩ then
    some (List.zipWith (· ^^^ ·) f.ciphertext
      (keystream key f.nonce f.ciphertext.length))
  else none

/-- Modelled from the spec: encryption of a string column value as done
by `StringEncryptedType.process_bind_param` — encode the `str` as UTF-8,
then run the field cipher. -/
def encryptFieldStr (s : String) (key : String) (nonce : List Nat) :
    EncryptedField :=
  aeadEncrypt (utf8Encode s) key nonce

/-- Modelled from the spec: decryption of a string column value as done
by `StringEncryptedType.process_result_value` — run the field cipher,
then decode the UTF-8 bytes; `none` is `AuthenticationFailure`. -/
def decryptFieldStr (f : EncryptedField) (key : String) : Option String :=
  (aeadDecrypt f key).bind (fun bs => (utf8DecodeChars bs).map String.mk)

/-- Keystream blocks have exactly 32 bytes per block. -/
theorem keystreamBlocks_length (keyBytes nonce : List Nat) (i : Nat) :
    (keystreamBlocks keyBytes nonce i).length = 32 * i := by
  induction i with
  | zero => rfl
  | succ i ih =>
      rw [keystreamBlocks, List.length_append, ih, sha256_length]
      ring

/-- The keystream has exactly the requested length. -/
theorem keystream_length (key : String) (nonce : List Nat) (n : Nat) :
    (keystream key nonce n).length = n := by
  rw [keystream, List.length_take, keystreamBlocks_length]
  omega

/-- XOR-ing twice with the same (sufficiently long) keystream is the
identity. -/
theorem zipWith_xor_cancel :
    ∀ (a b : List Nat), a.length ≤ b.length →
      List.zipWith (· ^^^ ·) (List.zipWith (· ^^^ ·) a b) b = a := by
  intro a
  induction a with
  | nil => intro b _; simp
  | cons x xs ih =>
      intro b hb
      cases b with
      | nil => simp at hb
      | cons y ys =>
          simp only [List.zipWith_cons_cons, List.cons.injEq]
          exact ⟨Nat.xor_cancel_right y x, ih ys (by simpa using hb)⟩

/-- Byte-level round trip of the modelled cipher. -/
theorem aeadDecrypt_aeadEncrypt (pt : List Nat) (key : String)
    (nonce : List Nat) :
    aeadDecrypt (aeadEncrypt pt key nonce) key = some pt := by
  rw [aeadEncrypt, aeadDecrypt]
  simp only [if_true]
  have hct : (List.zipWith (· ^^^ ·) pt
      (keystream key nonce pt.length)).length = pt.length := by
    rw [List.length_zipWith, keystream_length]
    omega
  rw [hct]
  rw [zipWith_xor_cancel pt _ (by rw [keystream_length])]

/-! ### Stored rows and the database state -/

/-- A stored row of the `account` table as relevant to the core: the
clear-text primary key and the encrypted `title` column (the probe column
of `is_key_valid`). -/
structure StoredAccount where
  id : Nat
  title : EncryptedField

/-- A stored row of the `custom_field` table: the clear-text primary key
and the clear-text foreign key `account_id` (`src/models/entities.py`). -/
structure StoredCustomField where
  id : Nat
  account_id : Nat

/-- The persistent database state: the `account` and `custom_field`
tables. -/
structure DBState where
  accounts : List StoredAccount
  custom_fields : List StoredCustomField

/-- `is_key_valid` from `src/utils/utils.py`: fetch the first `account`
row through a temporary entity whose `title` column decrypts with the
candidate key.  No row → plain success (`True`); a row whose `title`
fails authenticated decryption raises `InvalidCiphertextError`, caught
and surfaced as `False`; successful decryption → `True`. -/
def is_key_valid (encryption_key : String) (accounts : List StoredAccount) :
    Bool :=
  match accounts.head? with
  | none => true
  | some a => (decryptFieldStr a.title encryption_key).isSome

/-- `create_salt` from `src/utils/utils.py`: the 16 bytes handed back by
`os.urandom(16)` are written verbatim to `salt.bin` and returned.  The
result is `(returned salt, new contents of salt.bin)`; the previous file
contents are overwritten unconditionally. -/
def create_salt (urandom16 : List Nat) : List Nat × Option (List Nat) :=
  (urandom16, some urandom16)

/-- `load_salt` from `src/utils/utils.py`: read the whole of `salt.bin`,
or `None` when the file is absent. -/
def load_salt (saltFile : Option (List Nat)) : Option (List Nat) :=
  saltFile

/-- `AccountService.check_if_any_account` from
`src/services/account_service.py`: `first()` on the account table,
returning `account is None`. -/
def check_if_any_account (accounts : List StoredAccount) : Bool :=
  accounts.head?.isNone

/-- `check_if_db_is_empty` from `src/utils/utils.py`: returns
`account_service.check_if_any_account()` unchanged. -/
def check_if_db_is_empty (accounts : List StoredAccount) : Bool :=
  check_if_any_account accounts

/-- `AccountService.get_by_id`, as used by `delete`:
`query(...).filter(id == id).first()`, `None` when no row matches. -/
def account_get_by_id (db : DBState) (id : Nat) : Option StoredAccount :=
  (db.accounts.filter (fun a => a.id == id)).head?

/-- `AccountService.delete` from `src/services/account_service.py`: look
the account up (`False` when `NotFoundAccountException` is raised), then
`db.delete(account)` + commit.  The `custom_fields` relationship of the
`Account` entity is declared `cascade="all, delete-orphan"`
(`src/models/entities.py`), so deleting the account row also deletes
every `custom_field` row whose `account_id` references it. -/
def account_delete (db : DBState) (id : Nat) : Bool × DBState :=
  match account_get_by_id db id with
  | none => (false, db)
  | some _ =>
      (true,
        ⟨db.accounts.filter (fun a => ¬ a.id = id),
         db.custom_fields.filter (fun cf => ¬ cf.account_id = id)⟩)

/-! ### `generate_password` (`src/utils/utils.py`) -/

/-- Python's `string.ascii_lowercase`. -/
def ascii_lowercase : String := "abcdefghijklmnopqrstuvwxyz"

/-- Python's `string.digits`. -/
def digits : String := "0123456789"

/-- Python's `string.ascii_uppercase`. -/
def ascii_uppercase : String := "ABCDEFGHIJKLMNOPQRSTUVWXYZ"

/-- Python's `string.punctuation`. -/
def punct_chars : String := "!\"#$%&\x27()*+,-./:;<=>?@[\\]^_`\x7b|\x7d~"

/-- The character pool built by `generate_password`: lowercase letters
unconditionally, then digits / uppercase / specials per flag. -/
def password_pool (use_digits use_uppercase use_special : Bool) : String :=
  ascii_lowercase
    ++ (if use_digits then digits else "")
    ++ (if use_uppercase then ascii_uppercase else "")
    ++ (if use_special then punct_chars else "")

/-- `secrets.choice(character_pool)`: one uniformly random element of the
pool.  The randomness is modelled by the caller-supplied index `r`,
reduced modulo the pool size. -/
def poolChoice (pool : String) (r : Nat) : Char :=
  pool.data.getD (r % pool.data.length) 'a'

/-- `generate_password` from `src/utils/utils.py`.  `rand i` models the
`i`-th draw of `secrets.choice`; `Except.error` models `raise
ValueError`. -/
def generate_password (length : Int)
    (use_digits use_uppercase use_special : Bool)
    (rand : Nat → Nat) : Except String String :=
  if length < 1 then .error "Password length must be at least 1"
  else
    let character_pool := password_pool use_digits use_uppercase use_special
    if character_pool = "" then
      .error "At least one character type must be selected"
    else
      .ok (String.mk ((List.range length.toNat).map
        (fun i => poolChoice character_pool (rand i))))

/-! ### DTOs (`src/models/models.py`) and the console input pipeline -/

/-- The pydantic `CreateAccountDTO`: `title`, `user_name`, `password`
required, `url`, `notes`, `expiration_date` optional with default
`None`.  `datetime` values are opaque here and modelled as `Nat`. -/
structure CreateAccountDTO where
  title : String
  user_name : String
  password : String
  url : Option String
  notes : Option String
  expiration_date : Option Nat

/-- The pydantic `UpdateAccountDTO`: every field optional, default
`None`. -/
structure UpdateAccountDTO where
  title : Option String
  user_name : Option String
  password : Option String
  url : Option String
  notes : Option String
  expiration_date : Option Nat

/-- `add_new_account` from `src/view/console_view.py` (lines 287–336),
up to the `CreateAccountDTO` it hands to `AccountService.create`.  The
six strings are the raw `input()` answers (the non-generated password
path); `parse_date` models `datetime.strptime(..., "%d-%m-%Y")`, with
`none` for the caught `ValueError`.  Empty `title`, `user_name` or
`password` aborts (`return None`).  `url` and `notes` are passed to the
DTO verbatim as `str` values — also when empty — while the expiration
date is `None` unless a non-empty string parses. -/
def add_new_account_dto (title user_name password url notes
    expiration_date_str : String) (parse_date : String → Option Nat) :
    Option CreateAccountDTO :=
  if title = "" then none
  else if user_name = "" then none
  else if password = "" then none
  else
    some
      { title := title
        user_name := user_name
        password := password
        url := some url
        notes := some notes
        expiration_date :=
          if expiration_date_str = "" then none
          else parse_date expiration_date_str }

/-- `StringEncryptedType.process_bind_param` on a nullable string column
(`url`, `notes` in `src/models/entities.py`): SQL `NULL` for `None`,
otherwise the encrypted value — an empty string is a value and is
encrypted. -/
def bindEncryptedStr (v : Option String) (key : String) (nonce : List Nat) :
    Option EncryptedField :=
  v.map (fun s => encryptFieldStr s key nonce)

/-- Canonical string form of an (opaque) date, as fed to the cipher by
the encrypted `DateTime` column. -/
def dateToStr (d : Nat) : String := toString d

/-- `StringEncryptedType.process_bind_param` on the nullable
`expiration_date` column: SQL `NULL` for `None`, otherwise the encrypted
canonical string form of the date. -/
def bindEncryptedDate (v : Option Nat) (key : String) (nonce : List Nat) :
    Option EncryptedField :=
  v.map (fun d => encryptFieldStr (dateToStr d) key nonce)

/-! ### `AccountService.update` (`src/services/account_service.py`) -/

/-- The decrypted in-session view of an `account` row, as
`AccountService.update` sees it. -/
structure AccountRow where
  title : String
  user_name : String
  password : String
  url : Option String
  notes : Option String
  expiration_date : Option Nat
  last_modification_date : Nat

/-- `if update_account_dto.title and account.title != ...`: assign only
a truthy (non-`None`, non-empty) DTO value that differs from the stored
one, also bumping the modification date. -/
def upd_title (acc : AccountRow) (v : Option String) (now : Nat) : AccountRow :=
  match v with
  | some t =>
      if ¬ t = "" ∧ ¬ acc.title = t then
        { acc with title := t, last_modification_date := now }
      else acc
  | none => acc

/-- The `user_name` branch of `AccountService.update`. -/
def upd_user_name (acc : AccountRow) (v : Option String) (now : Nat) :
    AccountRow :=
  match v with
  | some t =>
      if ¬ t = "" ∧ ¬ acc.user_name = t then
        { acc with user_name := t, last_modification_date := now }
      else acc
  | none => acc

/-- The `password` branch of `AccountService.update`. -/
def upd_password (acc : AccountRow) (v : Option String) (now : Nat) :
    AccountRow :=
  match v with
  | some t =>
      if ¬ t = "" ∧ ¬ acc.password = t then
        { acc with password := t, last_modification_date := now }
      else acc
  | none => acc

/-- The `url` branch of `AccountService.update` (stored value may be
`None`; Python's `!=` compares `None` and strings without error). -/
def upd_url (acc : AccountRow) (v : Option String) (now : Nat) : AccountRow :=
  match v with
  | some t =>
      if ¬ t = "" ∧ ¬ acc.url = some t then
        { acc with url := some t, last_modification_date := now }
      else acc
  | none => acc

/-- The `notes` branch of `AccountService.update`. -/
def upd_notes (acc : AccountRow) (v : Option String) (now : Nat) : AccountRow :=
  match v with
  | some t =>
      if ¬ t = "" ∧ ¬ acc.notes = some t then
        { acc with notes := some t, last_modification_date := now }
      else acc
  | none => acc

/-- The `expiration_date` branch of `AccountService.update` (a
`datetime` is always truthy). -/
def upd_expiration (acc : AccountRow) (v : Option Nat) (now : Nat) :
    AccountRow :=
  match v with
  | some d =>
      if ¬ acc.expiration_date = some d then
        { acc with expiration_date := some d, last_modification_date := now }
      else acc
  | none => acc

/-- The field-assignment core of `AccountService.update` (lines 97–126):
the six conditional assignments, in source order, on an account that was
found by `get_by_id`. -/
def account_update_fields (acc : AccountRow) (dto : UpdateAccountDTO)
    (now : Nat) : AccountRow :=
  upd_expiration
    (upd_notes
      (upd_url
        (upd_password
          (upd_user_name
            (upd_title acc dto.title now)
            dto.user_name now)
          dto.password now)
        dto.url now)
      dto.notes now)
    dto.expiration_date now

/-- `upd_title` leaves every column other than `title` (and the
modification date) alone. -/
theorem upd_title_foreign (acc : AccountRow) (v : Option String) (now : Nat) :
    (upd_title acc v now).user_name = acc.user_name
      ∧ (upd_title acc v now).password = acc.password
      ∧ (upd_title acc v now).url = acc.url
      ∧ (upd_title acc v now).notes = acc.notes
      ∧ (upd_title acc v now).expiration_date = acc.expiration_date := by
  cases v with
  | none => exact ⟨rfl, rfl, rfl, rfl, rfl⟩
  | some t => simp only [upd_title]; split <;> exact ⟨rfl, rfl, rfl, rfl, rfl⟩

/-- `upd_user_name` leaves every other column alone. -/
theorem upd_user_name_foreign (acc : AccountRow) (v : Option String)
    (now : Nat) :
    (upd_user_name acc v now).title = acc.title
      ∧ (upd_user_name acc v now).password = acc.password
      ∧ (upd_user_name acc v now).url = acc.url
      ∧ (upd_user_name acc v now).notes = acc.notes
      ∧ (upd_user_name acc v now).expiration_date = acc.expiration_date := by
  cases v with
  | none => exact ⟨rfl, rfl, rfl, rfl, rfl⟩
  | some t =>
      simp only [upd_user_name]; split <;> exact ⟨rfl, rfl, rfl, rfl, rfl⟩

/-- `upd_password` leaves every other column alone. -/
theorem upd_password_foreign (acc : AccountRow) (v : Option String)
    (now : Nat) :
    (upd_password acc v now).title = acc.title
      ∧ (upd_password acc v now).user_name = acc.user_name
      ∧ (upd_password acc v now).url = acc.url
      ∧ (upd_password acc v now).notes = acc.notes
      ∧ (upd_password acc v now).expiration_date = acc.expiration_date := by
  cases v with
  | none => exact ⟨rfl, rfl, rfl, rfl, rfl⟩
  | some t =>
      simp only [upd_password]; split <;> exact ⟨rfl, rfl, rfl, rfl, rfl⟩

/-- `upd_url` leaves every other column alone. -/
theorem upd_url_foreign (acc : AccountRow) (v : Option String) (now : Nat) :
    (upd_url acc v now).title = acc.title
      ∧ (upd_url acc v now).user_name = acc.user_name
      ∧ (upd_url acc v now).password = acc.password
      ∧ (upd_url acc v now).notes = acc.notes
      ∧ (upd_url acc v now).expiration_date = acc.expiration_date := by
  cases v with
  | none => exact ⟨rfl, rfl, rfl, rfl, rfl⟩
  | some t => simp only [upd_url]; split <;> exact ⟨rfl, rfl, rfl, rfl, rfl⟩

/-- `upd_notes` leaves every other column alone. -/
theorem upd_notes_foreign (acc : AccountRow) (v : Option String) (now : Nat) :
    (upd_notes acc v now).title = acc.title
      ∧ (upd_notes acc v now).user_name = acc.user_name
      ∧ (upd_notes acc v now).password = acc.password
      ∧ (upd_notes acc v now).url = acc.url
      ∧ (upd_notes acc v now).expiration_date = acc.expiration_date := by
  cases v with
  | none => exact ⟨rfl, rfl, rfl, rfl, rfl⟩
  | some t => simp only [upd_notes]; split <;> exact ⟨rfl, rfl, rfl, rfl, rfl⟩

/-- `upd_expiration` leaves every other column alone. -/
theorem upd_expiration_foreign (acc : AccountRow) (v : Option Nat)
    (now : Nat) :
    (upd_expiration acc v now).title = acc.title
      ∧ (upd_expiration acc v now).user_name = acc.user_name
      ∧ (upd_expiration acc v now).password = acc.password
      ∧ (upd_expiration acc v now).url = acc.url
      ∧ (upd_expiration acc v now).notes = acc.notes := by
  cases v with
  | none => exact ⟨rfl, rfl, rfl, rfl, rfl⟩
  | some d =>
      simp only [upd_expiration]; split <;> exact ⟨rfl, rfl, rfl, rfl, rfl⟩

/-- A `None`, empty, or unchanged DTO title does not touch the stored
title. -/
theorem upd_title_skip (acc : AccountRow) (v : Option String) (now : Nat)
    (h : v = none ∨ v = some "" ∨ v = some acc.title) :
    (upd_title acc v now).title = acc.title := by
  rcases h with rfl | rfl | rfl
  · rfl
  · simp [upd_title]
  · simp [upd_title]

/-- A `None`, empty, or unchanged DTO user name does not touch the
stored user name. -/
theorem upd_user_name_skip (acc : AccountRow) (v : Option String) (now : Nat)
    (h : v = none ∨ v = some "" ∨ v = some acc.user_name) :
    (upd_user_name acc v now).user_name = acc.user_name := by
  rcases h with rfl | rfl | rfl
  · rfl
  · simp [upd_user_name]
  · simp [upd_user_name]

/-- A `None`, empty, or unchanged DTO password does not touch the stored
password. -/
theorem upd_password_skip (acc : AccountRow) (v : Option String) (now : Nat)
    (h : v = none ∨ v = some "" ∨ v = some acc.password) :
    (upd_password acc v now).password = acc.password := by
  rcases h with rfl | rfl | rfl
  · rfl
  · simp [upd_password]
  · simp [upd_password]

/-- A `None`, empty, or unchanged DTO URL does not touch the stored
URL. -/
theorem upd_url_skip (acc : AccountRow) (v : Option String) (now : Nat)
    (h : v = none ∨ v = some "" ∨ v = acc.url) :
    (upd_url acc v now).url = acc.url := by
  rcases h with rfl | rfl | rfl
  · rfl
  · simp [upd_url]
  · cases hurl : acc.url with
    | none => exact hurl
    | some u => simp [upd_url, hurl]

/-- A `None`, empty, or unchanged DTO notes value does not touch the
stored notes. -/
theorem upd_notes_skip (acc : AccountRow) (v : Option String) (now : Nat)
    (h : v = none ∨ v = some "" ∨ v = acc.notes) :
    (upd_notes acc v now).notes = acc.notes := by
  rcases h with rfl | rfl | rfl
  · rfl
  · simp [upd_notes]
  · cases hn : acc.notes with
    | none => exact hn
    | some u => simp [upd_notes, hn]

/-- A `None` or unchanged DTO expiration date does not touch the stored
expiration date. -/
theorem upd_expiration_skip (acc : AccountRow) (v : Option Nat) (now : Nat)
    (h : v = none ∨ v = acc.expiration_date) :
    (upd_expiration acc v now).expiration_date = acc.expiration_date := by
  rcases h with rfl | rfl
  · rfl
  · cases he : acc.expiration_date with
    | none => exact he
    | some d => simp [upd_expiration, he]

/-! ### Shared cipher-level helper lemmas -/

/-- Decrypting an encrypted string column with the key it was encrypted
under recovers the original string. -/
theorem decryptFieldStr_encryptFieldStr (s k : String) (nonce : List Nat) :
    decryptFieldStr (encryptFieldStr s k nonce) k = some s := by
  rw [decryptFieldStr, encryptFieldStr, aeadDecrypt_aeadEncrypt]
  rw [Option.some_bind, utf8DecodeChars_utf8Encode]
  rfl

/-- Decrypting with any key other than the encryption key is an
authentication failure. -/
theorem decryptFieldStr_wrong_key (s k1 k2 : String) (nonce : List Nat)
    (hne : k2 ≠ k1) :
    decryptFieldStr (encryptFieldStr s k1 nonce) k2 = none := by
  rw [decryptFieldStr, encryptFieldStr, aeadEncrypt, aeadDecrypt]
  simp only [AuthTag.mk.injEq]
  rw [if_neg (fun h => hne h.1.symm)]
  rfl

/-! ### Claim theorems -/

/-- C1: for a vault whose stored account record is encrypted under `k1`,
`is_key_valid k1` returns `true` and `is_key_valid k2` returns `false`
for every `k2 ≠ k1`; the wrong-key case is decided by the probe decrypt
failing authentication, surfaced as the boolean `false` (the model's
`Option` result) rather than an uncaught exception. -/
theorem C1_key_validation (s k1 k2 : String) (nonce : List Nat)
    (rest : List StoredAccount) (a : StoredAccount)
    (htitle : a.title = encryptFieldStr s k1 nonce) (hne : k2 ≠ k1) :
    is_key_valid k1 (a :: rest) = true
      ∧ is_key_valid k2 (a :: rest) = false := by
  constructor
  · rw [is_key_valid]
    simp only [List.head?_cons]
    rw [htitle, decryptFieldStr_encryptFieldStr]
    rfl
  · rw [is_key_valid]
    simp only [List.head?_cons]
    rw [htitle, decryptFieldStr_wrong_key s k1 k2 nonce hne]
    rfl

/-- Witness for C1 at a concrete one-record vault. -/
theorem C1_key_validation_witness :
    is_key_valid "a" [⟨1, encryptFieldStr "t" "a" [0]⟩] = true
      ∧ is_key_valid "b" [⟨1, encryptFieldStr "t" "a" [0]⟩] = false :=
  C1_key_validation "t" "a" "b" [0] []
    ⟨1, encryptFieldStr "t" "a" [0]⟩ rfl (by decide)

/-- C2: `derive_key` returns exactly 32 bytes, is exactly
PBKDF2-HMAC-SHA256 over the UTF-8 password and the salt with the
module-level iteration count, which meets the 600000 floor; it is a pure
function of its two arguments, so repeated calls agree definitionally. -/
theorem C2_derive_key_spec (p : String) (s : List Nat) :
    (derive_key p s).length = 32
      ∧ derive_key p s
          = pbkdf2HmacSha256 (utf8Encode p) s derive_key_iterations 32
      ∧ 600000 ≤ derive_key_iterations
      ∧ derive_key p s = derive_key p s :=
  ⟨pbkdf2HmacSha256_length _ _ _ _, rfl, Nat.le_refl _, rfl⟩

/-- C3: decrypting the encryption of any string under the same key
returns the original string — the field-level round trip performed on
every encrypted column such as `Account.title`. -/
theorem C3_field_roundtrip (s k : String) (nonce : List Nat) :
    decryptFieldStr (encryptFieldStr s k nonce) k = some s :=
  decryptFieldStr_encryptFieldStr s k nonce

/-- C4: validating any candidate key against a vault with zero account
records returns `true` — `first()` yields no row, no probe decrypt runs,
and the `True` branch is taken. -/
theorem C4_empty_vault_accepts_any_key (k : String) :
    is_key_valid k [] = true := rfl

/-- C5: `create_salt` returns the 16 bytes produced by `os.urandom(16)`
and writes exactly those bytes (no header or length prefix) as the new
salt-file contents; a subsequent `load_salt` returns exactly the same
16 bytes. -/
theorem C5_salt_roundtrip (urandom16 : List Nat)
    (h : urandom16.length = 16) :
    (create_salt urandom16).1 = urandom16
      ∧ (create_salt urandom16).2 = some urandom16
      ∧ load_salt (create_salt urandom16).2 = some urandom16
      ∧ (create_salt urandom16).1.length = 16 :=
  ⟨rfl, rfl, rfl, h⟩

/-- Witness for C5 at a concrete 16-byte value. -/
theorem C5_salt_roundtrip_witness :
    (List.replicate 16 7).length = 16
      ∧ load_salt (create_salt (List.replicate 16 7)).2
          = some (List.replicate 16 7) :=
  ⟨by decide, (C5_salt_roundtrip (List.replicate 16 7) (by decide)).2.2.1⟩

/-- C6 counterexample: an account added through the application with the
URL and notes answers left empty carries `url = some ""` and
`notes = some ""` in its DTO, and the storage layer binds those to an
encrypted empty string, not to SQL `NULL`. -/
theorem C6_counterexample :
    add_new_account_dto "a" "u" "p" "" "" "" (fun _ => none)
        = some ⟨"a", "u", "p", some "", some "", none⟩
      ∧ bindEncryptedStr (some "") "k" [0]
          = some (encryptFieldStr "" "k" [0])
      ∧ ¬ bindEncryptedStr (some "") "k" [0] = none :=
  ⟨rfl, rfl, fun h => Option.noConfusion h⟩

/-- C6 amended: of the optional fields left empty by the user, only the
expiration date is stored as a null marker; an empty URL and empty notes
are passed to the DTO as empty strings and stored as encrypted empty
strings. -/
theorem C6_amended_optional_fields (title user_name password k : String)
    (nonce : List Nat) (parse_date : String → Option Nat)
    (h1 : ¬ title = "") (h2 : ¬ user_name = "") (h3 : ¬ password = "") :
    ∃ dto : CreateAccountDTO,
      add_new_account_dto title user_name password "" "" "" parse_date
          = some dto
        ∧ dto.url = some "" ∧ dto.notes = some ""
        ∧ dto.expiration_date = none
        ∧ bindEncryptedStr dto.url k nonce
            = some (encryptFieldStr "" k nonce)
        ∧ bindEncryptedStr dto.notes k nonce
            = some (encryptFieldStr "" k nonce)
        ∧ bindEncryptedDate dto.expiration_date k nonce = none := by
  refine ⟨⟨title, user_name, password, some "", some "", none⟩,
    ?_, rfl, rfl, rfl, rfl, rfl, rfl⟩
  rw [add_new_account_dto, if_neg h1, if_neg h2, if_neg h3]
  rfl

/-- Witness for the amended C6 at concrete inputs. -/
theorem C6_amended_optional_fields_witness :
    ∃ dto : CreateAccountDTO,
      add_new_account_dto "a" "u" "p" "" "" "" (fun _ => none) = some dto
        ∧ dto.url = some "" ∧ dto.notes = some ""
        ∧ dto.expiration_date = none
        ∧ bindEncryptedStr dto.url "k" [0]
            = some (encryptFieldStr "" "k" [0])
        ∧ bindEncryptedStr dto.notes "k" [0]
            = some (encryptFieldStr "" "k" [0])
        ∧ bindEncryptedDate dto.expiration_date "k" [0] = none :=
  C6_amended_optional_fields "a" "u" "p" "k" [0] (fun _ => none)
    (by decide) (by decide) (by decide)

/-- C7: after a successful `AccountService.delete(id)`, no
`custom_field` row with `account_id = id` remains — the cascade declared
on the `custom_fields` relationship removes them with their account. -/
theorem C7_delete_cascades (db : DBState) (id : Nat)
    (h : (account_delete db id).1 = true) :
    ∀ cf ∈ (account_delete db id).2.custom_fields,
      ¬ cf.account_id = id := by
  intro cf hcf
  rw [account_delete] at hcf
  cases hfind : account_get_by_id db id with
  | none =>
      rw [account_delete, hfind] at h
      simp at h
  | some a =>
      rw [hfind] at hcf
      simp only [List.mem_filter] at hcf
      exact of_decide_eq_true hcf.2

/-- Witness for C7 at a concrete two-table database. -/
theorem C7_delete_cascades_witness :
    (account_delete
        ⟨[⟨1, encryptFieldStr "t" "k" [0]⟩], [⟨9, 1⟩, ⟨10, 2⟩]⟩ 1).1 = true
      ∧ ∀ cf ∈ (account_delete
          ⟨[⟨1, encryptFieldStr "t" "k" [0]⟩], [⟨9, 1⟩, ⟨10, 2⟩]⟩ 1).2.custom_fields,
          ¬ cf.account_id = 1 :=
  ⟨rfl, C7_delete_cascades _ 1 rfl⟩

/-- The modelled `secrets.choice` always picks an element of a non-empty
pool. -/
theorem poolChoice_mem (pool : String) (r : Nat)
    (h : ¬ pool.data = []) : poolChoice pool r ∈ pool.data := by
  rw [poolChoice]
  have hlen : 0 < pool.data.length := List.length_pos.mpr h
  have hlt : r % pool.data.length < pool.data.length := Nat.mod_lt _ hlen
  rw [List.getD_eq_getElem _ _ hlt]
  exact List.getElem_mem hlt

/-- C8: for every length ≥ 1 and every flag combination,
`generate_password` succeeds with a string of exactly `length`
characters drawn from its pool; the pool always contains the lowercase
letters, so it is never empty and the "At least one character type must
be selected" branch is unreachable. -/
theorem C8_generate_password (length : Int)
    (use_digits use_uppercase use_special : Bool) (rand : Nat → Nat)
    (h : 1 ≤ length) :
    ¬ password_pool use_digits use_uppercase use_special = ""
      ∧ ∃ p : String,
          generate_password length use_digits use_uppercase use_special rand
              = .ok p
            ∧ p.length = length.toNat
            ∧ ∀ c ∈ p.data,
                c ∈ (password_pool use_digits use_uppercase use_special).data := by
  have hpool_ne : ¬ password_pool use_digits use_uppercase use_special = "" := by
    cases use_digits <;> cases use_uppercase <;> cases use_special <;> decide
  have hdata_ne : ¬ (password_pool use_digits use_uppercase use_special).data
      = [] := by
    cases use_digits <;> cases use_uppercase <;> cases use_special <;> decide
  refine ⟨hpool_ne, String.mk ((List.range length.toNat).map
    (fun i => poolChoice (password_pool use_digits use_uppercase use_special)
      (rand i))), ?_, ?_, ?_⟩
  · rw [generate_password, if_neg (by omega)]
    simp only []
    rw [if_neg hpool_ne]
  · show ((List.range length.toNat).map _).length = length.toNat
    rw [List.length_map, List.length_range]
  · intro c hc
    have hc' : c ∈ (List.range length.toNat).map
        (fun i => poolChoice
          (password_pool use_digits use_uppercase use_special) (rand i)) := hc
    obtain ⟨i, _, rfl⟩ := List.mem_map.mp hc'
    exact poolChoice_mem _ _ hdata_ne

/-- Witness for C8 at concrete inputs. -/
theorem C8_generate_password_witness :
    ¬ password_pool true true true = ""
      ∧ ∃ p : String,
          generate_password 3 true true true (fun i => i) = .ok p
            ∧ p.length = (3 : Int).toNat
            ∧ ∀ c ∈ p.data, c ∈ (password_pool true true true).data :=
  C8_generate_password 3 true true true (fun i => i) (by decide)

/-- C9: `AccountService.update` never clears a column — a DTO attribute
that is `None` or the empty string leaves the column unchanged, as does
a DTO attribute equal to the stored value. -/
theorem C9_update_never_clears (acc : AccountRow) (dto : UpdateAccountDTO)
    (now : Nat) :
    (dto.title = none ∨ dto.title = some "" ∨ dto.title = some acc.title →
        (account_update_fields acc dto now).title = acc.title)
      ∧ (dto.user_name = none ∨ dto.user_name = some ""
            ∨ dto.user_name = some acc.user_name →
          (account_update_fields acc dto now).user_name = acc.user_name)
      ∧ (dto.password = none ∨ dto.password = some ""
            ∨ dto.password = some acc.password →
          (account_update_fields acc dto now).password = acc.password)
      ∧ (dto.url = none ∨ dto.url = some "" ∨ dto.url = acc.url →
          (account_update_fields acc dto now).url = acc.url)
      ∧ (dto.notes = none ∨ dto.notes = some "" ∨ dto.notes = acc.notes →
          (account_update_fields acc dto now).notes = acc.notes)
      ∧ (dto.expiration_date = none
            ∨ dto.expiration_date = acc.expiration_date →
          (account_update_fields acc dto now).expiration_date
            = acc.expiration_date) := by
  refine ⟨?_, ?_, ?_, ?_, ?_, ?_⟩ <;> intro h
  · rw [account_update_fields, (upd_expiration_foreign _ _ _).1,
      (upd_notes_foreign _ _ _).1, (upd_url_foreign _ _ _).1,
      (upd_password_foreign _ _ _).1, (upd_user_name_foreign _ _ _).1]
    exact upd_title_skip acc dto.title now h
  · rw [account_update_fields, (upd_expiration_foreign _ _ _).2.1,
      (upd_notes_foreign _ _ _).2.1, (upd_url_foreign _ _ _).2.1,
      (upd_password_foreign _ _ _).2.1]
    have h1 : (upd_title acc dto.title now).user_name = acc.user_name :=
      (upd_title_foreign _ _ _).1
    rw [← h1] at h
    rw [← h1]
    exact upd_user_name_skip _ _ _ h
  · rw [account_update_fields, (upd_expiration_foreign _ _ _).2.2.1,
      (upd_notes_foreign _ _ _).2.2.1, (upd_url_foreign _ _ _).2.2.1]
    have h1 : (upd_user_name (upd_title acc dto.title now) dto.user_name
        now).password = acc.password := by
      rw [(upd_user_name_foreign _ _ _).2.1, (upd_title_foreign _ _ _).2.1]
    rw [← h1] at h
    rw [← h1]
    exact upd_password_skip _ _ _ h
  · rw [account_update_fields, (upd_expiration_foreign _ _ _).2.2.2.1,
      (upd_notes_foreign _ _ _).2.2.2.1]
    have h1 : (upd_password (upd_user_name (upd_title acc dto.title now)
        dto.user_name now) dto.password now).url = acc.url := by
      rw [(upd_password_foreign _ _ _).2.2.1,
        (upd_user_name_foreign _ _ _).2.2.1, (upd_title_foreign _ _ _).2.2.1]
    rw [← h1] at h
    rw [← h1]
    exact upd_url_skip _ _ _ h
  · rw [account_update_fields, (upd_expiration_foreign _ _ _).2.2.2.2]
    have h1 : (upd_url (upd_password (upd_user_name
        (upd_title acc dto.title now) dto.user_name now) dto.password now)
        dto.url now).notes = acc.notes := by
      rw [(upd_url_foreign _ _ _).2.2.2.1, (upd_password_foreign _ _ _).2.2.2.1,
        (upd_user_name_foreign _ _ _).2.2.2.1,
        (upd_title_foreign _ _ _).2.2.2.1]
    rw [← h1] at h
    rw [← h1]
    exact upd_notes_skip _ _ _ h
  · rw [account_update_fields]
    have h1 : (upd_notes (upd_url (upd_password (upd_user_name
        (upd_title acc dto.title now) dto.user_name now) dto.password now)
        dto.url now) dto.notes now).expiration_date = acc.expiration_date := by
      rw [(upd_notes_foreign _ _ _).2.2.2.2, (upd_url_foreign _ _ _).2.2.2.2,
        (upd_password_foreign _ _ _).2.2.2.2,
        (upd_user_name_foreign _ _ _).2.2.2.2,
        (upd_title_foreign _ _ _).2.2.2.2]
    rw [← h1] at h
    rw [← h1]
    exact upd_expiration_skip _ _ _ h

/-- Witness for C9 at a concrete account and an all-`None` DTO. -/
theorem C9_update_never_clears_witness :
    (account_update_fields ⟨"t", "u", "p", none, none, none, 0⟩
        ⟨none, none, none, none, none, none⟩ 5).title = "t"
      ∧ (account_update_fields ⟨"t", "u", "p", none, none, none, 0⟩
          ⟨none, none, none, none, none, none⟩ 5).user_name = "u"
      ∧ (account_update_fields ⟨"t", "u", "p", none, none, none, 0⟩
          ⟨none, none, none, none, none, none⟩ 5).password = "p"
      ∧ (account_update_fields ⟨"t", "u", "p", none, none, none, 0⟩
          ⟨none, none, none, none, none, none⟩ 5).url = none
      ∧ (account_update_fields ⟨"t", "u", "p", none, none, none, 0⟩
          ⟨none, none, none, none, none, none⟩ 5).notes = none
      ∧ (account_update_fields ⟨"t", "u", "p", none, none, none, 0⟩
          ⟨none, none, none, none, none, none⟩ 5).expiration_date = none := by
  have h := C9_update_never_clears ⟨"t", "u", "p", none, none, none, 0⟩
    ⟨none, none, none, none, none, none⟩ 5
  exact ⟨h.1 (Or.inl rfl), h.2.1 (Or.inl rfl), h.2.2.1 (Or.inl rfl),
    h.2.2.2.1 (Or.inl rfl), h.2.2.2.2.1 (Or.inl rfl),
    h.2.2.2.2.2 (Or.inl rfl)⟩

/-- C10: `check_if_any_account` returns `True` exactly when the account
table has no rows, and `check_if_db_is_empty` returns that same value
unchanged — both report emptiness, not existence. -/
theorem C10_emptiness_semantics (accounts : List StoredAccount) :
    (check_if_any_account accounts = true ↔ accounts = [])
      ∧ check_if_db_is_empty accounts = check_if_any_account accounts := by
  refine ⟨⟨?_, ?_⟩, rfl⟩
  · intro h
    cases accounts with
    | nil => rfl
    | cons a l => simp [check_if_any_account] at h
  · intro h
    subst h
    rfl

end PasswordManager
